import Mathlib

/-!
Shallow embedding of the Garrett MICRO II emulator (Python sources
`micro2_memory.py`, `micro2_io.py`, `micro2_cpu.py`, `micro2_emulator.py`,
`micro2_assembler.py`, `micro2_disassembler.py`) together with theorems
checking the natural-language specification against it.

Conventions used by the embedding:
* Python ints are nonnegative here, so `x & 0xFF` is written `x % 256`,
  `x & 0x0F` is `x % 16`, `x & 0b11111` is `x % 32`, `x & 0b111` is `x % 8`,
  `x & 1` is `x % 2`; masks that are not low-bit masks (`& 0xE0`) keep the
  bitwise form `&&&`.
* Python's `(pc - 1) & 0xE0` (where `pc < 256`, but `pc - 1` may be `-1`)
  is written `((pc + 255) % 256) &&& 0xE0`, which agrees with Python's
  two's-complement semantics on that range.
* An in-place mutating method becomes a function returning the new state.
-/

namespace Micro2

/-! ## Memory system (`micro2_memory.py`, class `MICRO2_Memory`)

The Python object keeps `memory_banks` (8 lists of 256 words), a
`current_bank` index and `num_banks`.  The banks are modelled as a total
function `bank → address → word`; reads and writes mask the address to
8 bits exactly as the source does, so only indices `0..255` are relevant. -/

structure Memory where
  banks : Nat → Nat → Nat
  current_bank : Nat
  num_banks : Nat

/-- `MICRO2_Memory.read`: `address &= 0xFF; return banks[current_bank][address]`. -/
def Memory.read (m : Memory) (address : Nat) : Nat :=
  m.banks m.current_bank (address % 256)

/-- `MICRO2_Memory.write`: `address &= 0xFF; data &= 0xFF; banks[current_bank][address] = data`. -/
def Memory.write (m : Memory) (address data : Nat) : Memory :=
  { m with banks := fun b a =>
      if b = m.current_bank ∧ a = address % 256 then data % 256 else m.banks b a }

/-- `MICRO2_Memory.set_bank`: `if 0 <= bank_num < num_banks: current_bank = bank_num`
(the lower bound is automatic for naturals). -/
def Memory.set_bank (m : Memory) (bank_num : Nat) : Memory :=
  if bank_num < m.num_banks then { m with current_bank := bank_num } else m

/-- The `for i, instruction in enumerate(program_data)` loop of
`MICRO2_Memory.load_program`, with `i` the running index. -/
def Memory.load_program_loop : Memory → List Nat → Nat → Nat → Memory
  | m, [], _, _ => m
  | m, instruction :: rest, start_address, i =>
      Memory.load_program_loop
        (m.write ((start_address + i) % 256) (instruction % 256)) rest start_address (i + 1)

/-- `MICRO2_Memory.load_program`: masks `start_address` to 8 bits, then writes
`program_data[i]` to `(start_address + i) & 0xFF` for each `i`. -/
def Memory.load_program (m : Memory) (program_data : List Nat) (start_address : Nat) : Memory :=
  Memory.load_program_loop m program_data (start_address % 256) 0

/-- Fresh memory as built by `MICRO2_Memory.__init__`: all cells zero, bank 0
selected, one active bank. -/
def Memory.initial : Memory :=
  { banks := fun _ _ => 0, current_bank := 0, num_banks := 1 }

/-! ## I/O system (`micro2_io.py`)

The default device table from `MICRO2_IOSystem.setup_default_devices`:
slot 0 reserved (`None`), 1 console input, 2 console output, 3 data switches,
4 LED display, 5 paper tape, 6 and 7 empty.  Threads, `print` calls and the
GUI hooks have no observable effect on the machine state and are dropped. -/

structure ConsoleInputDevice where
  flag : Bool
  enabled : Bool
  input_queue : List Nat

structure ConsoleOutputDevice where
  flag : Bool
  enabled : Bool
  output_buffer : List Nat

structure DataSwitchDevice where
  flag : Bool
  enabled : Bool
  switch_value : Nat

structure LEDDisplayDevice where
  flag : Bool
  enabled : Bool
  display_value : Nat

structure PaperTapeDevice where
  flag : Bool
  enabled : Bool
  tape_data : List Nat
  read_position : Nat
  punch_data : List Nat

/-- `ConsoleInputDevice.input_data`: pop the queue; on an empty queue clear the
flag and return 0; otherwise return the head and clear the flag when the
queue has just become empty. -/
def ConsoleInputDevice.input_data (d : ConsoleInputDevice) : Nat × ConsoleInputDevice :=
  match d.input_queue with
  | [] => (0, { d with flag := false })
  | x :: rest =>
      (x, { d with input_queue := rest, flag := if rest = [] then false else d.flag })

/-- `ConsoleOutputDevice.output_data`: mask, append to the buffer, drop the
oldest entry when the buffer exceeds `max_buffer_size = 1000`. -/
def ConsoleOutputDevice.output_data (d : ConsoleOutputDevice) (data : Nat) : ConsoleOutputDevice :=
  let buf := d.output_buffer ++ [data % 256]
  { d with output_buffer := if buf.length > 1000 then buf.drop 1 else buf }

/-- `LEDDisplayDevice.output_data`: latch the masked word. -/
def LEDDisplayDevice.output_data (d : LEDDisplayDevice) (data : Nat) : LEDDisplayDevice :=
  { d with display_value := data % 256 }

/-- `PaperTapeDevice.input_data`: sequential read with the flag tracking
whether data remain. -/
def PaperTapeDevice.input_data (d : PaperTapeDevice) : Nat × PaperTapeDevice :=
  if h : d.read_position < d.tape_data.length then
    (d.tape_data.get ⟨d.read_position, h⟩,
      { d with read_position := d.read_position + 1,
               flag := decide (d.read_position + 1 < d.tape_data.length) })
  else
    (0, { d with flag := false })

/-- `PaperTapeDevice.output_data`: punch the masked word. -/
def PaperTapeDevice.output_data (d : PaperTapeDevice) (data : Nat) : PaperTapeDevice :=
  { d with punch_data := d.punch_data ++ [data % 256] }

structure IOSystem where
  console_in : ConsoleInputDevice
  console_out : ConsoleOutputDevice
  switches : DataSwitchDevice
  led : LEDDisplayDevice
  tape : PaperTapeDevice

/-- `MICRO2_IOSystem.input_data`: dispatch on the device table.  Devices 2 and
4 inherit the base `input_data` (returns 0, no state change); slots 0, 6, 7
hold `None` and also yield 0. -/
def IOSystem.input_data (io : IOSystem) (device_id : Nat) : Nat × IOSystem :=
  if device_id = 1 ∧ io.console_in.enabled then
    let r := io.console_in.input_data
    (r.1, { io with console_in := r.2 })
  else if device_id = 2 ∧ io.console_out.enabled then (0, io)
  else if device_id = 3 ∧ io.switches.enabled then (io.switches.switch_value, io)
  else if device_id = 4 ∧ io.led.enabled then (0, io)
  else if device_id = 5 ∧ io.tape.enabled then
    let r := io.tape.input_data
    (r.1, { io with tape := r.2 })
  else (0, io)

/-- `MICRO2_IOSystem.output_data`: devices 1 and 3 inherit the base
`output_data` (a no-op), `None` slots are skipped. -/
def IOSystem.output_data (io : IOSystem) (device_id data : Nat) : IOSystem :=
  if device_id = 2 ∧ io.console_out.enabled then
    { io with console_out := io.console_out.output_data data }
  else if device_id = 4 ∧ io.led.enabled then
    { io with led := io.led.output_data data }
  else if device_id = 5 ∧ io.tape.enabled then
    { io with tape := io.tape.output_data data }
  else io

/-- `MICRO2_IOSystem.check_flag`: a `None` or disabled slot reports `False`. -/
def IOSystem.check_flag (io : IOSystem) (device_id : Nat) : Bool :=
  if device_id = 1 ∧ io.console_in.enabled then io.console_in.flag
  else if device_id = 2 ∧ io.console_out.enabled then io.console_out.flag
  else if device_id = 3 ∧ io.switches.enabled then io.switches.flag
  else if device_id = 4 ∧ io.led.enabled then io.led.flag
  else if device_id = 5 ∧ io.tape.enabled then io.tape.flag
  else false

/-- The device set right after `MICRO2_IOSystem.__init__`: all queues and
buffers empty, every device enabled, only the data-switch device's flag set
(its constructor calls `set_flag(True)`). -/
def IOSystem.initial : IOSystem :=
  { console_in := { flag := false, enabled := true, input_queue := [] }
    console_out := { flag := false, enabled := true, output_buffer := [] }
    switches := { flag := true, enabled := true, switch_value := 0 }
    led := { flag := false, enabled := true, display_value := 0 }
    tape := { flag := false, enabled := true, tape_data := [], read_position := 0,
              punch_data := [] } }

/-! ## CPU (`micro2_cpu.py`, class `MICRO2_CPU`)

The Python CPU holds references to the memory and I/O systems; the whole
machine is modelled as one record `Sys`. -/

structure CPU where
  ac : Nat
  pc : Nat
  ir : Nat
  mar : Nat
  mdr : Nat
  msr : Nat
  overflow : Bool
  running : Bool
  halted : Bool
  data_switches : Nat
  run_stop : Bool

/-- Register state after `MICRO2_CPU.__init__` / `reset`. -/
def CPU.initial : CPU :=
  { ac := 0, pc := 0, ir := 0, mar := 0, mdr := 0, msr := 0,
    overflow := false, running := false, halted := false,
    data_switches := 0, run_stop := false }

structure Sys where
  cpu : CPU
  memory : Memory
  io_system : IOSystem

/-- `MICRO2_CPU._clr`. -/
def CPU.clr (c : CPU) : CPU := { c with ac := 0, overflow := false }

/-- `MICRO2_CPU._cmp`: `(~ac) & 0xFF`, i.e. `255 - ac % 256` for a
nonnegative `ac`. -/
def CPU.cmp (c : CPU) : CPU := { c with ac := 255 - c.ac % 256 }

/-- `MICRO2_CPU._rtl`. -/
def CPU.rtl (c : CPU) : CPU :=
  let carry := (c.ac >>> 7) % 2
  { c with ac := ((c.ac <<< 1) ||| carry) % 256 }

/-- `MICRO2_CPU._rtr`. -/
def CPU.rtr (c : CPU) : CPU :=
  let carry := c.ac % 2
  { c with ac := ((c.ac >>> 1) ||| (carry <<< 7)) % 256 }

/-- `MICRO2_CPU._ors`. -/
def CPU.ors (c : CPU) : CPU := { c with ac := c.ac ||| c.data_switches }

/-- `MICRO2_CPU._hlt`. -/
def CPU.hlt (c : CPU) : CPU := { c with halted := true, running := false }

/-- `MICRO2_CPU._sno`. -/
def CPU.sno (c : CPU) : CPU :=
  let c := if ¬ c.overflow then { c with pc := (c.pc + 1) % 256 } else c
  { c with overflow := false }

/-- `MICRO2_CPU._sna`. -/
def CPU.sna (c : CPU) : CPU :=
  if c.ac ≠ 0 then { c with pc := (c.pc + 1) % 256 } else c

/-- `MICRO2_CPU._szs`. -/
def CPU.szs (c : CPU) : CPU :=
  if c.ac &&& 0x80 = 0 then { c with pc := (c.pc + 1) % 256 } else c

/-- `MICRO2_CPU._sfg` (the emulator always injects an I/O system, so the
`if self.io_system` guard is always taken). -/
def Sys.sfg (s : Sys) : Sys :=
  let device_addr := s.cpu.ir % 8
  if s.io_system.check_flag device_addr then
    { s with cpu := { s.cpu with pc := (s.cpu.pc + 1) % 256 } }
  else s

/-- `MICRO2_CPU._inp`: the input arrives complemented and is ORed into AC;
`(~data) & 0xFF` is `255 - data % 256`. -/
def Sys.inp (s : Sys) : Sys :=
  let device_addr := s.cpu.ir % 8
  let r := s.io_system.input_data device_addr
  { s with io_system := r.2,
           cpu := { s.cpu with ac := s.cpu.ac ||| (255 - r.1 % 256) } }

/-- `MICRO2_CPU._out`: device 0 loads MSR from the low nibble of AC and asks
the memory system to select that bank; other devices receive AC. -/
def Sys.out (s : Sys) : Sys :=
  let device_addr := s.cpu.ir % 8
  if device_addr = 0 then
    { s with cpu := { s.cpu with msr := s.cpu.ac % 16 },
             memory := s.memory.set_bank (s.cpu.ac % 16) }
  else
    { s with io_system := s.io_system.output_data device_addr s.cpu.ac }

/-- `MICRO2_CPU._execute_memory_reference`.  The direct page is Python's
`(pc - 1) & 0xE0` on the already-incremented PC, written
`((pc + 255) % 256) &&& 0xE0` (see the file header). -/
def Sys.execute_memory_reference (s : Sys) (opcode : Nat) : Sys :=
  let indirect_bit := (s.cpu.ir >>> 5) % 2
  let address := s.cpu.ir % 32
  let mdr' := if indirect_bit ≠ 0 then s.memory.read address else s.cpu.mdr
  let effective_address :=
    if indirect_bit ≠ 0 then mdr'
    else (((s.cpu.pc + 255) % 256) &&& 0xE0) ||| address
  let s := { s with cpu := { s.cpu with mdr := mdr', mar := effective_address % 256 } }
  if opcode = 0 then
    { s with cpu := { s.cpu with pc := s.cpu.mar } }
  else if opcode = 1 then
    { s with memory := s.memory.write s.cpu.mar s.cpu.ac }
  else if opcode = 2 then
    let data := s.memory.read s.cpu.mar
    let result := s.cpu.ac + data
    { s with cpu := { s.cpu with overflow := decide (result > 255), ac := result % 256 } }
  else s

/-- `MICRO2_CPU._decode_and_execute`.  In the `else` branch `ir ≥ 192`, so of
the `instructions` dictionary only the register/skip keys can match exactly
and only the I/O keys can match on `(ir >> 3) & 0b11111`. -/
def Sys.decode_and_execute (s : Sys) : Sys :=
  let opcode := (s.cpu.ir >>> 6) % 4
  if opcode = 0 ∨ opcode = 1 ∨ opcode = 2 then
    s.execute_memory_reference opcode
  else if s.cpu.ir = 0b11000000 then { s with cpu := s.cpu.clr }
  else if s.cpu.ir = 0b11000001 then { s with cpu := s.cpu.cmp }
  else if s.cpu.ir = 0b11000010 then { s with cpu := s.cpu.rtl }
  else if s.cpu.ir = 0b11000011 then { s with cpu := s.cpu.rtr }
  else if s.cpu.ir = 0b11000100 then { s with cpu := s.cpu.ors }
  else if s.cpu.ir = 0b11000101 then s
  else if s.cpu.ir = 0b11000110 then { s with cpu := s.cpu.hlt }
  else if s.cpu.ir = 0b11001000 then { s with cpu := s.cpu.sno }
  else if s.cpu.ir = 0b11001001 then { s with cpu := s.cpu.sna }
  else if s.cpu.ir = 0b11001010 then { s with cpu := s.cpu.szs }
  else
    let io_opcode := (s.cpu.ir >>> 3) % 32
    if io_opcode = 0b11010 then s.sfg
    else if io_opcode = 0b11100 then s.inp
    else if io_opcode = 0b11110 then s.out
    else s

/-- `MICRO2_CPU.execute_instruction`: returns `False` immediately when
halted; otherwise fetch (MAR ← PC, IR ← mem[MAR], PC ← PC+1 mod 256),
decode/execute, and report `not halted`. -/
def Sys.execute_instruction (s : Sys) : Bool × Sys :=
  if s.cpu.halted then (false, s)
  else
    let s1 : Sys :=
      { s with cpu := { s.cpu with
          mar := s.cpu.pc
          ir := s.memory.read s.cpu.pc
          pc := (s.cpu.pc + 1) % 256 } }
    let s2 := s1.decode_and_execute
    (!s2.cpu.halted, s2)

/-- `MICRO2_CPU.load_address` (LOAD ADDRESS button): only in STOP mode. -/
def Sys.load_address (s : Sys) : Sys :=
  if ¬ s.cpu.run_stop then { s with cpu := { s.cpu with pc := s.cpu.data_switches } } else s

/-- `MICRO2_CPU.load_data` (LOAD DATA button): only in STOP mode. -/
def Sys.load_data (s : Sys) : Sys :=
  if ¬ s.cpu.run_stop then
    { s with memory := s.memory.write s.cpu.pc s.cpu.data_switches,
             cpu := { s.cpu with ir := s.cpu.data_switches, pc := (s.cpu.pc + 1) % 256 } }
  else s

/-- `MICRO2_CPU.display_memory` (DISPLAY button): only in STOP mode. -/
def Sys.display_memory (s : Sys) : Sys :=
  if ¬ s.cpu.run_stop then
    { s with cpu := { s.cpu with ir := s.memory.read s.cpu.pc, pc := (s.cpu.pc + 1) % 256 } }
  else s

/-- Unfolding of one non-halted instruction cycle: fetch, then
decode/execute. -/
lemma execute_instruction_not_halted (s : Sys) (hh : s.cpu.halted = false) :
    s.execute_instruction =
      (!(Sys.decode_and_execute
          { s with cpu := { s.cpu with
              mar := s.cpu.pc
              ir := s.memory.read s.cpu.pc
              pc := (s.cpu.pc + 1) % 256 } }).cpu.halted,
        Sys.decode_and_execute
          { s with cpu := { s.cpu with
              mar := s.cpu.pc
              ir := s.memory.read s.cpu.pc
              pc := (s.cpu.pc + 1) % 256 } }) := by
  simp [Sys.execute_instruction, hh]

/-! ## Emulator facade (`micro2_emulator.py`, class `MICRO2_Emulator`)

`run_program` is the `while` loop of `MICRO2_Emulator.run_program` written as
a recursion on the remaining instruction budget.  The Python function
returns a `(bool, message)` pair and mutates the machine; here the loop
returns the final machine, the `instruction_count` variable, the outcome
flag and the message (as a constructor carrying the interpolated values).
`execs` is instrumentation only: it counts calls of `execute_instruction`
(each of which executes exactly one instruction, since the loop only calls
it while not halted); the source does not carry this counter. -/

structure Emulator where
  sys : Sys
  breakpoints : List Nat

inductive RunMsg where
  | breakpointAt (pc : Nat)
  | maxLimitReached (limit : Nat)
  | completed (count : Nat)
  | stopped (count : Nat)
deriving DecidableEq

structure RunResult where
  sys : Sys
  instruction_count : Nat
  execs : Nat
  ok : Bool
  msg : RunMsg

/-- The statements after `MICRO2_Emulator.run_program`'s `while` loop. -/
def run_end (maxI : Nat) (s : Sys) (count execs : Nat) : RunResult :=
  if maxI ≤ count then
    ⟨{ s with cpu := { s.cpu with running := false } }, count, execs, false,
      RunMsg.maxLimitReached maxI⟩
  else if s.cpu.halted then ⟨s, count, execs, true, RunMsg.completed count⟩
  else ⟨s, count, execs, true, RunMsg.stopped count⟩

/-- The `while` loop of `MICRO2_Emulator.run_program` (`execute_instruction`
is pure here, so the two textual occurrences denote the single Python
call). -/
def run_loop (bps : List Nat) (maxI : Nat) (s : Sys) (count execs : Nat) : RunResult :=
  if h : s.cpu.running = true ∧ s.cpu.halted = false ∧ count < maxI then
    if s.cpu.pc ∈ bps then
      ⟨{ s with cpu := { s.cpu with running := false } }, count, execs, false,
        RunMsg.breakpointAt s.cpu.pc⟩
    else if (s.execute_instruction).1 = false then
      run_end maxI (s.execute_instruction).2 count (execs + 1)
    else
      run_loop bps maxI (s.execute_instruction).2 (count + 1) (execs + 1)
  else run_end maxI s count execs
termination_by maxI - count
decreasing_by omega

/-- `MICRO2_Emulator.run_program`: set `running`, then loop from count 0. -/
def Emulator.run_program (e : Emulator) (maxI : Nat) : RunResult :=
  run_loop e.breakpoints maxI
    { e.sys with cpu := { e.sys.cpu with running := true } } 0 0

/-! Helper lemmas for C6: one instruction step never sets `running` (only
`HLT` clears it, setting `halted` at the same time), and a step reporting
`False` leaves the CPU halted. -/

lemma execute_memory_reference_rh (s : Sys) (o : Nat) :
    (s.execute_memory_reference o).cpu.running = s.cpu.running
    ∧ (s.execute_memory_reference o).cpu.halted = s.cpu.halted := by
  simp only [Sys.execute_memory_reference]
  split_ifs <;> exact ⟨rfl, rfl⟩

lemma decode_and_execute_rh (s : Sys) :
    ((s.decode_and_execute).cpu.running = s.cpu.running
      ∧ (s.decode_and_execute).cpu.halted = s.cpu.halted)
    ∨ ((s.decode_and_execute).cpu.halted = true
      ∧ (s.decode_and_execute).cpu.running = false) := by
  simp only [Sys.decode_and_execute]
  by_cases h1 : (s.cpu.ir >>> 6) % 4 = 0 ∨ (s.cpu.ir >>> 6) % 4 = 1 ∨ (s.cpu.ir >>> 6) % 4 = 2
  · rw [if_pos h1]
    exact Or.inl (execute_memory_reference_rh _ _)
  rw [if_neg h1]
  by_cases h2 : s.cpu.ir = 192
  · rw [if_pos h2]
    exact Or.inl ⟨rfl, rfl⟩
  rw [if_neg h2]
  by_cases h3 : s.cpu.ir = 193
  · rw [if_pos h3]
    exact Or.inl ⟨rfl, rfl⟩
  rw [if_neg h3]
  by_cases h4 : s.cpu.ir = 194
  · rw [if_pos h4]
    exact Or.inl ⟨rfl, rfl⟩
  rw [if_neg h4]
  by_cases h5 : s.cpu.ir = 195
  · rw [if_pos h5]
    exact Or.inl ⟨rfl, rfl⟩
  rw [if_neg h5]
  by_cases h6 : s.cpu.ir = 196
  · rw [if_pos h6]
    exact Or.inl ⟨rfl, rfl⟩
  rw [if_neg h6]
  by_cases h7 : s.cpu.ir = 197
  · rw [if_pos h7]
    exact Or.inl ⟨rfl, rfl⟩
  rw [if_neg h7]
  by_cases h8 : s.cpu.ir = 198
  · rw [if_pos h8]
    exact Or.inr ⟨rfl, rfl⟩
  rw [if_neg h8]
  by_cases h9 : s.cpu.ir = 200
  · rw [if_pos h9]
    exact Or.inl (by constructor <;> (simp only [CPU.sno]; split_ifs <;> rfl))
  rw [if_neg h9]
  by_cases h10 : s.cpu.ir = 201
  · rw [if_pos h10]
    exact Or.inl (by constructor <;> (simp only [CPU.sna]; split_ifs <;> rfl))
  rw [if_neg h10]
  by_cases h11 : s.cpu.ir = 202
  · rw [if_pos h11]
    exact Or.inl (by constructor <;> (simp only [CPU.szs]; split_ifs <;> rfl))
  rw [if_neg h11]
  by_cases h12 : (s.cpu.ir >>> 3) % 32 = 26
  · rw [if_pos h12]
    exact Or.inl (by constructor <;> (simp only [Sys.sfg]; split_ifs <;> rfl))
  rw [if_neg h12]
  by_cases h13 : (s.cpu.ir >>> 3) % 32 = 28
  · rw [if_pos h13]
    exact Or.inl ⟨rfl, rfl⟩
  rw [if_neg h13]
  by_cases h14 : (s.cpu.ir >>> 3) % 32 = 30
  · rw [if_pos h14]
    exact Or.inl (by constructor <;> (simp only [Sys.out]; split_ifs <;> rfl))
  rw [if_neg h14]
  exact Or.inl ⟨rfl, rfl⟩

lemma execute_instruction_false_halted (s : Sys)
    (h : (s.execute_instruction).1 = false) :
    (s.execute_instruction).2.cpu.halted = true := by
  by_cases hh : s.cpu.halted
  · simp [Sys.execute_instruction, hh]
  · simp only [Sys.execute_instruction, hh, Bool.false_eq_true, if_false] at h ⊢
    simpa using h

lemma execute_instruction_inv (s : Sys) (hr : s.cpu.running = true) :
    (s.execute_instruction).2.cpu.running = true
    ∨ (s.execute_instruction).2.cpu.halted = true := by
  by_cases hh : s.cpu.halted
  · right
    simp [Sys.execute_instruction, hh]
  · have hh' : s.cpu.halted = false := by simpa using hh
    rw [execute_instruction_not_halted s hh']
    rcases decode_and_execute_rh
        { s with cpu := { s.cpu with
            mar := s.cpu.pc
            ir := s.memory.read s.cpu.pc
            pc := (s.cpu.pc + 1) % 256 } } with hcase | hcase
    · left
      rw [hcase.1]
      exact hr
    · right
      exact hcase.1

lemma run_end_spec (maxI : Nat) (s : Sys) (count execs : Nat) (hc : count ≤ maxI)
    (hstop : maxI ≤ count ∨ s.cpu.halted = true) :
    (run_end maxI s count execs).execs = execs
    ∧ (run_end maxI s count execs).instruction_count ≤ maxI
    ∧ ((∃ p, (run_end maxI s count execs).msg = RunMsg.breakpointAt p
            ∧ (run_end maxI s count execs).ok = false
            ∧ (run_end maxI s count execs).sys.cpu.running = false)
       ∨ (∃ c, (run_end maxI s count execs).msg = RunMsg.completed c
            ∧ (run_end maxI s count execs).ok = true
            ∧ (run_end maxI s count execs).sys.cpu.halted = true)
       ∨ ((run_end maxI s count execs).msg = RunMsg.maxLimitReached maxI
            ∧ (run_end maxI s count execs).instruction_count = maxI
            ∧ (run_end maxI s count execs).sys.cpu.running = false
            ∧ (run_end maxI s count execs).ok = false)) := by
  unfold run_end
  by_cases hm : maxI ≤ count
  · rw [if_pos hm]
    have hcm : count = maxI := Nat.le_antisymm hc hm
    subst hcm
    exact ⟨rfl, le_rfl, Or.inr (Or.inr ⟨rfl, rfl, rfl, rfl⟩)⟩
  · rw [if_neg hm]
    have hhalt : s.cpu.halted = true := by
      rcases hstop with h | h
      · omega
      · exact h
    rw [if_pos hhalt]
    exact ⟨rfl, hc, Or.inr (Or.inl ⟨count, rfl, rfl, hhalt⟩)⟩

lemma run_loop_spec (bps : List Nat) (maxI : Nat) :
    ∀ n s count execs, maxI - count ≤ n → count ≤ maxI →
      (s.cpu.running = true ∨ s.cpu.halted = true) →
      (run_loop bps maxI s count execs).execs ≤ execs + (maxI - count)
      ∧ (run_loop bps maxI s count execs).instruction_count ≤ maxI
      ∧ ((∃ p, (run_loop bps maxI s count execs).msg = RunMsg.breakpointAt p
              ∧ (run_loop bps maxI s count execs).ok = false
              ∧ (run_loop bps maxI s count execs).sys.cpu.running = false)
         ∨ (∃ c, (run_loop bps maxI s count execs).msg = RunMsg.completed c
              ∧ (run_loop bps maxI s count execs).ok = true
              ∧ (run_loop bps maxI s count execs).sys.cpu.halted = true)
         ∨ ((run_loop bps maxI s count execs).msg = RunMsg.maxLimitReached maxI
              ∧ (run_loop bps maxI s count execs).instruction_count = maxI
              ∧ (run_loop bps maxI s count execs).sys.cpu.running = false
              ∧ (run_loop bps maxI s count execs).ok = false)) := by
  intro n
  induction n with
  | zero =>
    intro s count execs hn hc hinv
    rw [run_loop]
    rw [dif_neg (by omega)]
    have h0 := run_end_spec maxI s count execs hc (Or.inl (by omega))
    refine ⟨?_, h0.2.1, h0.2.2⟩
    rw [h0.1]
    omega
  | succ n ih =>
    intro s count execs hn hc hinv
    rw [run_loop]
    by_cases h : s.cpu.running = true ∧ s.cpu.halted = false ∧ count < maxI
    · have hcm : count < maxI := h.2.2
      rw [dif_pos h]
      by_cases hbp : s.cpu.pc ∈ bps
      · rw [if_pos hbp]
        exact ⟨Nat.le_add_right _ _, hc, Or.inl ⟨s.cpu.pc, rfl, rfl, rfl⟩⟩
      · rw [if_neg hbp]
        by_cases hstep : (s.execute_instruction).1 = false
        · rw [if_pos hstep]
          have hhalt := execute_instruction_false_halted s hstep
          have h0 := run_end_spec maxI (s.execute_instruction).2 count (execs + 1) hc
            (Or.inr hhalt)
          refine ⟨?_, h0.2.1, h0.2.2⟩
          rw [h0.1]
          omega
        · rw [if_neg hstep]
          have hinv' := execute_instruction_inv s h.1
          have h0 := ih (s.execute_instruction).2 (count + 1) (execs + 1)
            (by omega) (by omega) hinv'
          refine ⟨?_, h0.2.1, h0.2.2⟩
          have h1 := h0.1
          omega
    · rw [dif_neg h]
      have hstop : maxI ≤ count ∨ s.cpu.halted = true := by
        by_cases hm : maxI ≤ count
        · exact Or.inl hm
        · rcases hinv with hr | hh
          · right
            by_contra hh'
            exact h ⟨hr, by simpa using hh', by omega⟩
          · exact Or.inr hh
      have h0 := run_end_spec maxI s count execs hc hstop
      refine ⟨?_, h0.2.1, h0.2.2⟩
      rw [h0.1]
      omega

/-- C6.  For every `run_program(max_steps)` call, at most `max_steps`
instructions execute (the `execs` instrumentation counts the
`execute_instruction` calls, each of which runs exactly one instruction),
and the loop stops for exactly one of three reasons: a breakpoint at the
current PC before an instruction (non-`ok`, `running` cleared), the CPU
halting (`ok`, `halted` set), or the instruction count reaching
`max_steps` (non-`ok` diagnostic, `running` cleared, final state still
returned for inspection). -/
theorem C6_run_program_bounded (e : Emulator) (maxI : Nat) :
    (e.run_program maxI).execs ≤ maxI
    ∧ (e.run_program maxI).instruction_count ≤ maxI
    ∧ ((∃ p, (e.run_program maxI).msg = RunMsg.breakpointAt p
            ∧ (e.run_program maxI).ok = false
            ∧ (e.run_program maxI).sys.cpu.running = false)
       ∨ (∃ c, (e.run_program maxI).msg = RunMsg.completed c
            ∧ (e.run_program maxI).ok = true
            ∧ (e.run_program maxI).sys.cpu.halted = true)
       ∨ ((e.run_program maxI).msg = RunMsg.maxLimitReached maxI
            ∧ (e.run_program maxI).instruction_count = maxI
            ∧ (e.run_program maxI).sys.cpu.running = false
            ∧ (e.run_program maxI).ok = false)) := by
  have h0 := run_loop_spec e.breakpoints maxI maxI
    { e.sys with cpu := { e.sys.cpu with running := true } } 0 0
    (by omega) (by omega) (Or.inl rfl)
  unfold Emulator.run_program
  refine ⟨?_, h0.2.1, h0.2.2⟩
  have h1 := h0.1
  omega

/-! ## Disassembler (`micro2_disassembler.py`, class `MICRO2_Disassembler`)

Python format specifiers used by the source: `{n:02X}` (upper-case hex,
zero-padded to two digits), `{n:08b}` (binary, zero-padded to eight digits),
`{s:<15}` (left-justified to width 15). -/

def hex2 (n : Nat) : String :=
  let s := (Nat.toDigits 16 n).map Char.toUpper
  String.mk (List.replicate (2 - s.length) '0' ++ s)

def bin8 (n : Nat) : String :=
  let s := Nat.toDigits 2 n
  String.mk (List.replicate (8 - s.length) '0' ++ s)

def ljust (s : String) (w : Nat) : String :=
  s ++ String.mk (List.replicate (w - s.length) ' ')

def memory_ref_names : List (Nat × String) := [(0, "JMP"), (1, "STR"), (2, "ADD")]

def register_names : List (Nat × String) :=
  [(0b11000000, "CLR"), (0b11000001, "CMP"), (0b11000010, "RTL"), (0b11000011, "RTR"),
   (0b11000100, "ORS"), (0b11000101, "NOP"), (0b11000110, "HLT")]

def skip_names : List (Nat × String) :=
  [(0b11001000, "SNO"), (0b11001001, "SNA"), (0b11001010, "SZS")]

def io_names : List (Nat × String) := [(0b11010, "SFG"), (0b11100, "INP"), (0b11110, "OUT")]

/-- `MICRO2_Disassembler._disassemble_memory_ref` (the opcode is always one
of 0, 1, 2 at the call site, so the dictionary lookup always succeeds and
the `""` default is never produced). -/
def disassemble_memory_ref (instruction : Nat) : String :=
  let opcode := (instruction >>> 6) % 4
  let indirect_bit := (instruction >>> 5) % 2
  let address := instruction % 32
  let mnemonic := (memory_ref_names.lookup opcode).getD ""
  if indirect_bit ≠ 0 then mnemonic ++ " *" ++ Nat.repr address
  else mnemonic ++ " " ++ Nat.repr address

/-- `MICRO2_Disassembler.disassemble_instruction`. -/
def disassemble_instruction (instruction0 : Nat) : String :=
  let instruction := instruction0 % 256
  let opcode := (instruction >>> 6) % 4
  if (memory_ref_names.lookup opcode).isSome then disassemble_memory_ref instruction
  else
    match register_names.lookup instruction with
    | some s => s
    | none =>
      match skip_names.lookup instruction with
      | some s => s
      | none =>
        let io_opcode := (instruction >>> 3) % 32
        match io_names.lookup io_opcode with
        | some s => s ++ " " ++ Nat.repr (instruction % 8)
        | none => "DATA 0x" ++ hex2 instruction ++ "  ; Unknown instruction"

/-- The `for addr in range(256)` scan of `MICRO2_Disassembler.analyze_program`
that leaves `program_end` at the last address holding a nonzero word. -/
def analyze_program_end (m : Memory) : Nat :=
  (List.range 256).foldl
    (fun program_end addr => if m.read addr ≠ 0 then addr else program_end) 0

/-- First annotation pass of `analyze_program`: collect jump targets (the
source uses a set; only membership is consumed, so a list with possible
duplicates is equivalent). -/
def analyze_jump_targets (m : Memory) (program_end : Nat) : List Nat :=
  (List.range (program_end + 1)).foldl
    (fun jump_targets addr =>
      let instruction := m.read addr
      let opcode := (instruction >>> 6) % 4
      if opcode = 0 then
        let indirect_bit := (instruction >>> 5) % 2
        let target := instruction % 32
        if indirect_bit = 0 then jump_targets ++ [((addr &&& 0xE0) ||| target)]
        else jump_targets ++ [target]
      else jump_targets) []

/-- `MICRO2_Disassembler._is_likely_data` (the `address` and `memory`
parameters are unused in the source as well). -/
def is_likely_data (instruction : Nat) (_address : Nat) (_m : Memory) : Bool :=
  let opcode := (instruction >>> 6) % 4
  if opcode = 0 ∨ opcode = 1 ∨ opcode = 2 then false
  else if (register_names.lookup instruction).isSome
       ∨ (skip_names.lookup instruction).isSome then false
  else if (io_names.lookup ((instruction >>> 3) % 32)).isSome then false
  else true

/-- Second annotation pass of `analyze_program`: one listing line per address
`0..program_end`. -/
def analyze_listing (m : Memory) (program_end : Nat) (jump_targets : List Nat) : List String :=
  (List.range (program_end + 1)).map fun addr =>
    let instruction := m.read addr
    let disasm := disassemble_instruction instruction
    let comment :=
      (if jump_targets.contains addr then "; <-- Jump target" else "")
      ++ (if is_likely_data instruction addr m then "; (Data)" else "")
    hex2 addr ++ ":     " ++ bin8 instruction ++ "  " ++ ljust disasm 15 ++ " " ++ comment

/-- Page-in-use summary at the end of `analyze_program`. -/
def analyze_pages (m : Memory) : List String :=
  (List.range 8).foldl
    (fun acc page =>
      let page_start := page * 32
      let page_end := page_start + 31
      let has_content := (List.range 32).any fun i => m.read (page_start + i) ≠ 0
      if has_content then
        acc ++ ["Page " ++ Nat.repr page ++ " (" ++ hex2 page_start ++ "-"
          ++ hex2 page_end ++ "): In use"]
      else acc) []

/-- `MICRO2_Disassembler.analyze_program`, as the `analysis` list of lines
(the source returns `"\n".join(analysis)`). -/
def analyze_program_lines (m : Memory) : List String :=
  let analysis := ["MICRO II Program Analysis", String.mk (List.replicate 40 '=')]
  let program_end := analyze_program_end m
  if program_end = 0 then analysis ++ ["No program found in memory."]
  else
    analysis
      ++ ["Program size: " ++ Nat.repr (program_end + 1) ++ " words", ""]
      ++ ["Address  Binary    Instruction     Comment", String.mk (List.replicate 50 '-')]
      ++ analyze_listing m program_end (analyze_jump_targets m program_end)
      ++ ["", "Memory Layout Summary:", String.mk (List.replicate 25 '-')]
      ++ analyze_pages m

/-- `MICRO2_Disassembler.analyze_program`'s return value. -/
def analyze_program (m : Memory) : String :=
  String.intercalate "\n" (analyze_program_lines m)

/-! ## Assembler (`micro2_assembler.py`, class `MICRO2_Assembler`)

The assembler is text processing; Python string methods are modelled on
`List Char` values.  `memory_size` is the default 256 used by the emulator
facade.  Exceptions are modelled with `Except PyError`: the second pass
catches `AssemblyError` (as the source does) while any other exception
(`ValueError` from a bad `int(...)` literal) propagates out of `assemble`
and is caught by the facade's `load_assembly_program`. -/

abbrev Line := List Char

/-- Python's whitespace characters for `str.strip` / `str.split()`. -/
def isPySpace (c : Char) : Bool :=
  c = ' ' || c = '\t' || c = '\n' || c = '\r' || c = '\x0b' || c = '\x0c'

/-- Python `str.strip()`. -/
def pyStrip (l : Line) : Line :=
  ((l.dropWhile isPySpace).reverse.dropWhile isPySpace).reverse

/-- Python `str.split(sep)` for a one-character separator (keeps empty
parts). -/
def pySplitChar (sep : Char) : Line → List Line
  | [] => [[]]
  | c :: rest =>
      if c = sep then [] :: pySplitChar sep rest
      else
        match pySplitChar sep rest with
        | [] => [[c]]
        | g :: gs => (c :: g) :: gs

/-- Python `str.split(sep, 1)` for a one-character separator.  The source
uses both `line.split(':')[0]` and `line.split(':', 1)[0]`, which coincide,
so this single helper serves both. -/
def pySplitCharOnce (sep : Char) : Line → List Line
  | [] => [[]]
  | c :: rest =>
      if c = sep then [[], rest]
      else
        match pySplitCharOnce sep rest with
        | [] => [[c]]
        | g :: gs => (c :: g) :: gs

/-- Python `str.split()` (split on whitespace runs, dropping empties). -/
def pySplitWSAux : Line → Line → List Line
  | [], acc => if acc = [] then [] else [acc.reverse]
  | c :: rest, acc =>
      if isPySpace c then
        if acc = [] then pySplitWSAux rest []
        else acc.reverse :: pySplitWSAux rest []
      else pySplitWSAux rest (c :: acc)

def pySplitWS (l : Line) : List Line := pySplitWSAux l []

/-- Python `str.upper()` (the sources only contain ASCII). -/
def pyUpper (l : Line) : Line := l.map Char.toUpper

/-- Python `str.startswith(p)`. -/
def startsWith (p l : Line) : Bool := p.isPrefixOf l

/-- Python `str.isdigit()` (ASCII digits). -/
def pyIsDigit (l : Line) : Bool := !l.isEmpty && l.all Char.isDigit

def parseDecDigits (l : Line) : Nat :=
  l.foldl (fun n c => n * 10 + (c.toNat - '0'.toNat)) 0

def hexDigitVal (c : Char) : Option Nat :=
  if '0' ≤ c ∧ c ≤ '9' then some (c.toNat - '0'.toNat)
  else if 'a' ≤ c ∧ c ≤ 'f' then some (c.toNat - 'a'.toNat + 10)
  else if 'A' ≤ c ∧ c ≤ 'F' then some (c.toNat - 'A'.toNat + 10)
  else none

def parseBaseDigits (base : Nat) (l : Line) : Option Nat :=
  if l = [] then none
  else
    l.foldl
      (fun acc c =>
        match acc, hexDigitVal c with
        | some n, some v => if v < base then some (n * base + v) else none
        | _, _ => none)
      (some 0)

inductive PyError where
  | assemblyError (msg : String)
  | valueError (msg : String)
deriving DecidableEq

def PyError.text : PyError → String
  | PyError.assemblyError m => m
  | PyError.valueError m => m

/-- Python `int(s, 16)`: optional `0x`/`0X` then hex digits (numeric-literal
underscores are not modelled; none appear in the repository's programs). -/
def pyIntBase16 (l : Line) : Except PyError Nat :=
  let body := if startsWith ['0', 'x'] l ∨ startsWith ['0', 'X'] l then l.drop 2 else l
  match parseBaseDigits 16 body with
  | some n => Except.ok n
  | none => Except.error (PyError.valueError
      ("invalid literal for int() with base 16: " ++ "\x27" ++ l.asString ++ "\x27"))

/-- Python `int(s, 2)`: optional `0b`/`0B` then binary digits. -/
def pyIntBase2 (l : Line) : Except PyError Nat :=
  let body := if startsWith ['0', 'b'] l ∨ startsWith ['0', 'B'] l then l.drop 2 else l
  match parseBaseDigits 2 body with
  | some n => Except.ok n
  | none => Except.error (PyError.valueError
      ("invalid literal for int() with base 2: " ++ "\x27" ++ l.asString ++ "\x27"))

def memory_ref_opcodes : List (String × Nat) := [("JMP", 0b00), ("STR", 0b01), ("ADD", 0b10)]

def register_opcodes : List (String × Nat) :=
  [("CLR", 0b11000000), ("CMP", 0b11000001), ("RTL", 0b11000010), ("RTR", 0b11000011),
   ("ORS", 0b11000100), ("NOP", 0b11000101), ("HLT", 0b11000110)]

def skip_opcodes : List (String × Nat) :=
  [("SNO", 0b11001000), ("SNA", 0b11001001), ("SZS", 0b11001010)]

def io_opcodes : List (String × Nat) :=
  [("SFG", 0b11010000), ("INP", 0b11100000), ("OUT", 0b11110000)]

/-- `MICRO2_Assembler._parse_address_value`. -/
def parse_address_value (operand : Line) : Except PyError Nat :=
  if startsWith ['0', 'X'] (pyUpper operand) then pyIntBase16 operand
  else if startsWith ['0', 'B'] (pyUpper operand) then pyIntBase2 operand
  else if pyIsDigit operand then Except.ok (parseDecDigits operand)
  else Except.error (PyError.assemblyError ("Invalid address value: " ++ operand.asString))

/-- `MICRO2_Assembler._parse_address` (the `current_address` parameter is
unused in the source as well).  Returns `(indirect, address)`. -/
def parse_address (labels : List (String × Nat)) (operand0 : Line)
    (_current_address : Nat) : Except PyError (Bool × Nat) := do
  let io0 :=
    if startsWith ['('] operand0 ∧ [')'].isSuffixOf operand0 then
      (true, (operand0.drop 1).dropLast)
    else if startsWith ['*'] operand0 then (true, operand0.drop 1)
    else (false, operand0)
  let indirect := io0.1
  let operand := io0.2
  let addr ←
    match labels.lookup operand.asString with
    | some a => Except.ok a
    | none =>
      if startsWith ['0', 'X'] (pyUpper operand) then pyIntBase16 operand
      else if startsWith ['0', 'B'] (pyUpper operand) then pyIntBase2 operand
      else if pyIsDigit operand then Except.ok (parseDecDigits operand)
      else Except.error (PyError.assemblyError ("Invalid address: " ++ operand.asString))
  if ¬ indirect ∧ addr > 31 then
    Except.error (PyError.assemblyError
      ("Direct address " ++ Nat.repr addr ++ " exceeds 5-bit range (0-31)"))
  else if indirect ∧ addr > 31 then
    Except.error (PyError.assemblyError
      ("Indirect address pointer " ++ Nat.repr addr ++ " exceeds 5-bit range (0-31)"))
  else Except.ok (indirect, addr)

/-- `MICRO2_Assembler._parse_device_address` (0..7; the lower bound is
automatic for naturals). -/
def parse_device_address (operand : Line) : Except PyError Nat := do
  let addr ←
    if startsWith ['0', 'X'] (pyUpper operand) then pyIntBase16 operand
    else if startsWith ['0', 'B'] (pyUpper operand) then pyIntBase2 operand
    else if pyIsDigit operand then Except.ok (parseDecDigits operand)
    else Except.error (PyError.assemblyError ("Invalid device address: " ++ operand.asString))
  if ¬ (addr ≤ 7) then
    Except.error (PyError.assemblyError
      ("Device address " ++ Nat.repr addr ++ " must be 0-7"))
  else Except.ok addr

/-- `MICRO2_Assembler._parse_data_value` (0..255). -/
def parse_data_value (operand : Line) : Except PyError Nat := do
  let value ←
    if startsWith ['0', 'X'] (pyUpper operand) then pyIntBase16 operand
    else if startsWith ['0', 'B'] (pyUpper operand) then pyIntBase2 operand
    else if pyIsDigit operand then Except.ok (parseDecDigits operand)
    else Except.error (PyError.assemblyError ("Invalid data value: " ++ operand.asString))
  if ¬ (value ≤ 255) then
    Except.error (PyError.assemblyError
      ("Data value " ++ Nat.repr value ++ " must be 0-255"))
  else Except.ok value

/-- `MICRO2_Assembler._parse_instruction` (labels passed explicitly instead
of through `self`). -/
def parse_instruction (labels : List (String × Nat)) (line : Line)
    (address : Nat) (_line_num : Nat) : Except PyError Nat :=
  match pySplitWS (pyUpper line) with
  | [] => Except.error (PyError.assemblyError "Empty instruction")
  | mnemonicL :: restParts =>
    let mnemonic := mnemonicL.asString
    match memory_ref_opcodes.lookup mnemonic with
    | some opcode =>
      match restParts with
      | [operand] => do
          let r ← parse_address labels operand address
          Except.ok ((opcode <<< 6) ||| ((if r.1 then 1 else 0) <<< 5) ||| (r.2 % 32))
      | _ => Except.error (PyError.assemblyError (mnemonic ++ " requires one operand"))
    | none =>
      match register_opcodes.lookup mnemonic with
      | some code =>
        if restParts = [] then Except.ok code
        else Except.error (PyError.assemblyError (mnemonic ++ " takes no operands"))
      | none =>
        match skip_opcodes.lookup mnemonic with
        | some code =>
          if restParts = [] then Except.ok code
          else Except.error (PyError.assemblyError (mnemonic ++ " takes no operands"))
        | none =>
          match io_opcodes.lookup mnemonic with
          | some code =>
            match restParts with
            | [operand] => do
                let device_addr ← parse_device_address operand
                Except.ok (code ||| device_addr)
            | _ => Except.error (PyError.assemblyError
                (mnemonic ++ " requires device address"))
          | none =>
            if mnemonic = "DATA" then
              match restParts with
              | [operand] => parse_data_value operand
              | _ => Except.error (PyError.assemblyError "DATA requires one value")
            else
              Except.error (PyError.assemblyError ("Unknown instruction: " ++ mnemonic))

/-- `MICRO2_Assembler._preprocess`: drop `;` comments, strip, keep nonempty
lines. -/
def preprocess (source_code : String) : List Line :=
  ((pySplitChar '\n' source_code.toList).map fun line =>
      pyStrip ((pySplitChar ';' line).headD [])).filter (fun l => l ≠ [])

def line_err (line_num : Nat) (msg : String) : String :=
  "Line " ++ Nat.repr (line_num + 1) ++ ": " ++ msg

structure Pass1State where
  address : Nat
  labels : List (String × Nat)
  errors : List String

/-- One line of `assemble`'s first pass.  The labels dictionary is an
association list where the most recent insertion shadows older ones, matching
Python dict assignment. -/
def first_pass_line (st : Pass1State) (line_num : Nat) (line0 : Line) : Pass1State :=
  let line := pyStrip line0
  if line = [] ∨ startsWith ['#'] line then st
  else if startsWith ['O', 'R', 'G'] (pyUpper line) then
    match pySplitWS line with
    | [_, p1] =>
      match parse_address_value p1 with
      | Except.ok a =>
          if a ≥ 256 then
            { st with address := a,
                      errors := st.errors ++ [line_err line_num
                        ("ORG address " ++ Nat.repr a ++ " exceeds memory size 256")] }
          else { st with address := a }
      | Except.error e =>
          -- `except Exception`: both AssemblyError and ValueError land here
          { st with errors := st.errors ++ [line_err line_num ("ORG error - " ++ e.text)] }
    | _ => { st with errors := st.errors ++ [line_err line_num "ORG requires one address"] }
  else if line.contains ':' ∧ ¬ startsWith [' '] line then
    let parts := pySplitCharOnce ':' line
    let label := pyStrip (parts.headD [])
    let labels' := ((pyUpper label).asString, st.address) :: st.labels
    let remainder := pyStrip (parts.getD 1 [])
    if remainder ≠ [] ∧ ¬ startsWith ['O', 'R', 'G'] (pyUpper remainder) then
      { st with labels := labels', address := st.address + 1 }
    else { st with labels := labels' }
  else { st with address := st.address + 1 }

structure Pass2State where
  address : Nat
  sparse_code : List (Nat × Nat)
  errors : List String

/-- One line of `assemble`'s second pass.  The sparse dictionary is an
association list where a new entry shadows older entries for the same
address (`List.lookup` finds the most recent one).  `AssemblyError` is
caught (error recorded, 0 stored); other exceptions propagate. -/
def second_pass_line (labels : List (String × Nat)) (st : Pass2State)
    (line_num : Nat) (line0 : Line) : Except PyError Pass2State :=
  let line := pyStrip line0
  if line = [] ∨ startsWith ['#'] line then Except.ok st
  else if startsWith ['O', 'R', 'G'] (pyUpper line) then
    -- `try: address = parse(parts[1]) ... except: continue` (bare except:
    -- a missing parts[1] or a parse failure both just continue; the error
    -- was already recorded by the first pass)
    match pySplitWS line with
    | _ :: p1 :: _ =>
      match parse_address_value p1 with
      | Except.ok a => Except.ok { st with address := a }
      | Except.error _ => Except.ok st
    | _ => Except.ok st
  else
    let lineAfterLabel : Option Line :=
      if line.contains ':' ∧ ¬ startsWith [' '] line then
        let parts := pySplitCharOnce ':' line
        if 1 < parts.length ∧ pyStrip (parts.getD 1 []) ≠ [] then
          some (pyStrip (parts.getD 1 []))
        else none
      else some line
    match lineAfterLabel with
    | none => Except.ok st
    | some line1 =>
      let line2 := pyStrip ((pySplitCharOnce '#' line1).headD [])
      if line2 = [] then Except.ok st
      else if st.address ≥ 256 then
        Except.ok { st with errors := st.errors ++ [line_err line_num
          ("Address " ++ Nat.repr st.address ++ " exceeds memory size 256")] }
      else
        match parse_instruction labels line2 st.address (line_num + 1) with
        | Except.ok instruction =>
            Except.ok { st with
              sparse_code := (st.address, instruction) :: st.sparse_code
              address := st.address + 1 }
        | Except.error (PyError.assemblyError e) =>
            Except.ok { st with
              errors := st.errors ++ [line_err line_num e]
              sparse_code := (st.address, 0) :: st.sparse_code
              address := st.address + 1 }
        | Except.error e => Except.error e

/-- `max(sparse_code.keys())` (evaluated only on a nonempty dictionary). -/
def sparse_max_address (sc : List (Nat × Nat)) : Nat :=
  sc.foldl (fun m p => max m p.1) 0

/-- The flattening step at the end of `assemble`:
`machine_code = [0] * (max_address + 1)` followed by
`machine_code[addr] = instruction` for every entry. -/
def flatten_sparse (sc : List (Nat × Nat)) : List Nat :=
  if sc = [] then []
  else (List.range (sparse_max_address sc + 1)).map fun addr => (sc.lookup addr).getD 0

/-- Both passes of `MICRO2_Assembler.assemble`, returning the final
second-pass state (sparse code and accumulated errors; `self.errors` is
shared between the passes, so the second pass starts from the first pass's
error list). -/
def assemble_passes (source_code : String) : Except PyError Pass2State :=
  let lines := preprocess source_code
  let st1 := lines.enum.foldl (fun st p => first_pass_line st p.1 p.2)
    { address := 0, labels := [], errors := [] }
  lines.enum.foldlM (fun st p => second_pass_line st1.labels st p.1 p.2)
    { address := 0, sparse_code := [], errors := st1.errors }

/-- `MICRO2_Assembler.assemble`: machine code (flattened) and error list. -/
def assemble (source_code : String) : Except PyError (List Nat × List String) :=
  match assemble_passes source_code with
  | Except.error e => Except.error e
  | Except.ok st2 => Except.ok (flatten_sparse st2.sparse_code, st2.errors)

/-- `MICRO2_Emulator.load_assembly_program`: refuse to load on assembly
errors (or an escaped exception), else write the flattened code at
`start_address` and point PC there. -/
def Sys.load_assembly_program (s : Sys) (source_code : String) (start_address : Nat) :
    Bool × Sys :=
  match assemble source_code with
  | Except.error _ => (false, s)
  | Except.ok (machine_code, errors) =>
    if errors ≠ [] then (false, s)
    else (true, { s with memory := s.memory.load_program machine_code start_address,
                         cpu := { s.cpu with pc := start_address } })

/-! ## Example machine states used as witnesses -/

/-- A halted machine. -/
def haltedSys : Sys :=
  { cpu := { CPU.initial with halted := true }, memory := Memory.initial,
    io_system := IOSystem.initial }

/-- A machine with the RUN/STOP switch in RUN position. -/
def runModeSys : Sys :=
  { cpu := { CPU.initial with run_stop := true }, memory := Memory.initial,
    io_system := IOSystem.initial }

/-- A machine about to execute `SNO` (word `0b11001000`). -/
def snoSys : Sys :=
  { cpu := CPU.initial,
    memory := { banks := fun _ _ => 0b11001000, current_bank := 0, num_banks := 1 },
    io_system := IOSystem.initial }

/-- AC = 3 and two active banks, about to execute `OUT 0` (word `0b11110000`). -/
def outSys : Sys :=
  { cpu := { CPU.initial with ac := 3 },
    memory := { banks := fun _ _ => 0b11110000, current_bank := 0, num_banks := 2 },
    io_system := IOSystem.initial }

/-- AC = 255, about to execute `ADD 5` (word `0b10000101`); cell 5 holds 1. -/
def addSys : Sys :=
  { cpu := { CPU.initial with ac := 255 },
    memory := { banks := fun _ a => if a = 0 then 0b10000101 else if a = 5 then 1 else 0,
                current_bank := 0, num_banks := 1 },
    io_system := IOSystem.initial }

/-! ## C1: effective-address computation -/

/-- "JMP 4" in the last word of page 0: instruction word 4 at address 31. -/
def jmpSys : Sys :=
  { cpu := { CPU.initial with pc := 31 },
    memory := { banks := fun _ a => if a = 31 then 4 else 0, current_bank := 0, num_banks := 1 },
    io_system := IOSystem.initial }

set_option maxRecDepth 4096 in
lemma land_e0_all : ∀ p < 256, p &&& 0xE0 = 32 * (p / 32) := by decide

lemma land_e0_eq (p : Nat) (hp : p < 256) : p &&& 0xE0 = 32 * (p / 32) :=
  land_e0_all p hp

set_option maxRecDepth 4096 in
lemma or_low5_all : ∀ k < 8, ∀ r < 32, (32 * k) ||| r = 32 * k + r := by decide

lemma or_low5 (k r : Nat) (hk : k < 8) (hr : r < 32) : (32 * k) ||| r = 32 * k + r :=
  or_low5_all k hk r hr

lemma execute_memory_reference_mar (s : Sys) (o : Nat) :
    (s.execute_memory_reference o).cpu.mar =
      (if (s.cpu.ir >>> 5) % 2 ≠ 0 then s.memory.read (s.cpu.ir % 32)
       else (((s.cpu.pc + 255) % 256) &&& 0xE0) ||| (s.cpu.ir % 32)) % 256 := by
  simp only [Sys.execute_memory_reference]
  split_ifs <;> rfl

lemma decode_mem_ref (s : Sys)
    (hop : (s.cpu.ir >>> 6) % 4 = 0 ∨ (s.cpu.ir >>> 6) % 4 = 1 ∨ (s.cpu.ir >>> 6) % 4 = 2) :
    s.decode_and_execute = s.execute_memory_reference ((s.cpu.ir >>> 6) % 4) := by
  simp only [Sys.decode_and_execute]
  rw [if_pos hop]

/-- C1.  For a memory-reference instruction (top two bits 00, 01 or 10) the
effective address latched into MAR is: with indirect bit 0, the page of the
instruction's own address (its top three bits) ORed with the word's low five
bits — so a direct reference from the last word of a page stays in the same
page (`mar / 32 = pc / 32`); with indirect bit 1, the full 8-bit word read at
the low five bits taken as an address, with no page OR. -/
theorem C1_effective_address (s : Sys) (hh : s.cpu.halted = false) (hpc : s.cpu.pc < 256)
    (hwf : ∀ b a, s.memory.banks b a < 256)
    (hop : (s.memory.read s.cpu.pc >>> 6) % 4 = 0 ∨ (s.memory.read s.cpu.pc >>> 6) % 4 = 1
        ∨ (s.memory.read s.cpu.pc >>> 6) % 4 = 2) :
    ((s.memory.read s.cpu.pc >>> 5) % 2 = 0 →
        (s.execute_instruction).2.cpu.mar
            = (s.cpu.pc &&& 0xE0) ||| (s.memory.read s.cpu.pc % 32)
        ∧ (s.execute_instruction).2.cpu.mar / 32 = s.cpu.pc / 32)
    ∧ ((s.memory.read s.cpu.pc >>> 5) % 2 = 1 →
        (s.execute_instruction).2.cpu.mar = s.memory.read (s.memory.read s.cpu.pc % 32)) := by
  rw [execute_instruction_not_halted s hh]
  rw [decode_mem_ref _ hop]
  rw [execute_memory_reference_mar]
  have hpc1 : ((s.cpu.pc + 1) % 256 + 255) % 256 = s.cpu.pc := by omega
  simp only [hpc1]
  constructor
  · intro hdir
    rw [if_neg (by simp [hdir])]
    rw [land_e0_eq s.cpu.pc hpc]
    have hk : s.cpu.pc / 32 < 8 := by omega
    have hr : s.memory.read s.cpu.pc % 32 < 32 := Nat.mod_lt _ (by norm_num)
    rw [or_low5 _ _ hk hr]
    have hlt : 32 * (s.cpu.pc / 32) + s.memory.read s.cpu.pc % 32 < 256 := by omega
    rw [Nat.mod_eq_of_lt hlt]
    exact ⟨rfl, by omega⟩
  · intro hind
    rw [if_pos (by simp [hind])]
    exact Nat.mod_eq_of_lt (hwf _ _)

/-- C1 witness: a direct `JMP 4` sitting in the last word of page 0
references address 4, in the instruction's own page. -/
theorem C1_witness :
    ((jmpSys.memory.read jmpSys.cpu.pc >>> 5) % 2 = 0 →
        (jmpSys.execute_instruction).2.cpu.mar
            = (jmpSys.cpu.pc &&& 0xE0) ||| (jmpSys.memory.read jmpSys.cpu.pc % 32)
        ∧ (jmpSys.execute_instruction).2.cpu.mar / 32 = jmpSys.cpu.pc / 32)
    ∧ ((jmpSys.memory.read jmpSys.cpu.pc >>> 5) % 2 = 1 →
        (jmpSys.execute_instruction).2.cpu.mar
            = jmpSys.memory.read (jmpSys.memory.read jmpSys.cpu.pc % 32)) :=
  C1_effective_address jmpSys rfl (by decide)
    (by intro b a; simp only [jmpSys]; split <;> norm_num) (by decide)

/-! ## C9: a halted CPU does nothing -/

/-- C9.  When the halted flag is set, `execute_instruction` returns `False`
and the machine state (every register, flag and memory cell) is unchanged —
no fetch is performed. -/
theorem C9_halted_step_is_noop (s : Sys) (h : s.cpu.halted = true) :
    s.execute_instruction = (false, s) := by
  simp [Sys.execute_instruction, h]

theorem C9_witness : haltedSys.execute_instruction = (false, haltedSys) :=
  C9_halted_step_is_noop haltedSys rfl

/-! ## C10: front-panel buttons are no-ops in RUN mode -/

/-- C10.  With the run/stop switch in RUN position, `load_address`,
`load_data` and `display_memory` leave the machine state untouched
(PC, IR, data switches and all memory cells included). -/
theorem C10_front_panel_noop_in_run (s : Sys) (h : s.cpu.run_stop = true) :
    s.load_address = s ∧ s.load_data = s ∧ s.display_memory = s := by
  refine ⟨?_, ?_, ?_⟩ <;>
    simp [Sys.load_address, Sys.load_data, Sys.display_memory, h]

theorem C10_witness :
    runModeSys.load_address = runModeSys ∧ runModeSys.load_data = runModeSys ∧
      runModeSys.display_memory = runModeSys :=
  C10_front_panel_noop_in_run runModeSys rfl

/-! ## C4: SNO skips iff no overflow and always clears overflow -/

/-- C4.  Executing `SNO` adds one extra PC increment (beyond the fetch
increment, all modulo 256) exactly when overflow is false at the test, and
overflow is false after the instruction in every case. -/
theorem C4_sno_consumes_overflow (s : Sys) (hh : s.cpu.halted = false)
    (hi : s.memory.read s.cpu.pc = 0b11001000) :
    (s.execute_instruction).2.cpu.overflow = false
    ∧ (s.execute_instruction).2.cpu.pc =
        (if s.cpu.overflow then s.cpu.pc + 1 else s.cpu.pc + 2) % 256 := by
  simp only [Sys.execute_instruction, hh, Bool.false_eq_true, if_false,
    Sys.decode_and_execute, hi, CPU.sno]
  cases hov : s.cpu.overflow <;> simp [hov]

theorem C4_witness :
    (snoSys.execute_instruction).2.cpu.overflow = false
    ∧ (snoSys.execute_instruction).2.cpu.pc =
        (if snoSys.cpu.overflow then snoSys.cpu.pc + 1 else snoSys.cpu.pc + 2) % 256 :=
  C4_sno_consumes_overflow snoSys rfl rfl

/-! ## C5: ADD is addition modulo 256 with a carry-out overflow flag -/

/-- C5.  Executing an `ADD` instruction (any addressing mode) sets
`AC ← (AC + operand) mod 256` where the operand is the memory word at the
effective address (recorded in MAR), sets overflow exactly when the raw sum
exceeds 255, and leaves memory unchanged. -/
theorem C5_add_mod256_overflow (s : Sys) (hh : s.cpu.halted = false)
    (hop : (s.memory.read s.cpu.pc >>> 6) % 4 = 2) :
    (s.execute_instruction).2.cpu.ac
        = (s.cpu.ac + s.memory.read ((s.execute_instruction).2.cpu.mar)) % 256
    ∧ ((s.execute_instruction).2.cpu.overflow = true
        ↔ s.cpu.ac + s.memory.read ((s.execute_instruction).2.cpu.mar) > 255)
    ∧ (s.execute_instruction).2.memory = s.memory := by
  simp only [Sys.execute_instruction, hh, Bool.false_eq_true, if_false,
    Sys.decode_and_execute, hop, Sys.execute_memory_reference]
  norm_num

/-- C5 witness: with `AC = 255` and operand 1 the result is `AC = 0` with
overflow set. -/
theorem C5_witness :
    (addSys.execute_instruction).2.cpu.ac
        = (addSys.cpu.ac + addSys.memory.read ((addSys.execute_instruction).2.cpu.mar)) % 256
    ∧ ((addSys.execute_instruction).2.cpu.overflow = true
        ↔ addSys.cpu.ac + addSys.memory.read ((addSys.execute_instruction).2.cpu.mar) > 255)
    ∧ (addSys.execute_instruction).2.memory = addSys.memory :=
  C5_add_mod256_overflow addSys rfl rfl

/-! ## C2: `OUT 0` and bank selection -/

/-- C2 counterexample: with two active banks, bank 0 current and `AC = 3`,
`OUT 0` leaves bank 0 selected (since `3 ≥ 2` the `set_bank` request is
ignored), while the claim demands bank `3 % 2 = 1`. -/
theorem C2_counterexample :
    (outSys.execute_instruction).2.cpu.msr = outSys.cpu.ac % 16
    ∧ (outSys.execute_instruction).2.memory.current_bank
        ≠ (outSys.cpu.ac % 16) % outSys.memory.num_banks := by
  constructor
  · rfl
  · decide

/-- C2 amended.  After `OUT 0`, `MSR = AC & 0x0F`; the selected bank becomes
`AC & 0x0F` when that value is smaller than the number of active banks and
is otherwise left unchanged (so with one active bank, requests for banks 1+
silently stay on the current bank).  Bank contents and the bank count are
untouched. -/
theorem C2_amended_out0 (s : Sys) (hh : s.cpu.halted = false)
    (hi : s.memory.read s.cpu.pc = 0b11110000) :
    (s.execute_instruction).2.cpu.msr = s.cpu.ac % 16
    ∧ (s.execute_instruction).2.memory.current_bank =
        (if s.cpu.ac % 16 < s.memory.num_banks then s.cpu.ac % 16 else s.memory.current_bank)
    ∧ (s.execute_instruction).2.memory.num_banks = s.memory.num_banks
    ∧ (s.execute_instruction).2.memory.banks = s.memory.banks := by
  simp only [Sys.execute_instruction, hh, Bool.false_eq_true, if_false,
    Sys.decode_and_execute, hi]
  simp [Sys.out, Memory.set_bank]
  split <;> simp

theorem C2_witness :
    (outSys.execute_instruction).2.cpu.msr = outSys.cpu.ac % 16
    ∧ (outSys.execute_instruction).2.memory.current_bank =
        (if outSys.cpu.ac % 16 < outSys.memory.num_banks then outSys.cpu.ac % 16
         else outSys.memory.current_bank)
    ∧ (outSys.execute_instruction).2.memory.num_banks = outSys.memory.num_banks
    ∧ (outSys.execute_instruction).2.memory.banks = outSys.memory.banks :=
  C2_amended_out0 outSys rfl rfl

/-! ## C7: assemble/disassemble round trips -/

def memory_ref_mnemonics : List String := ["JMP", "STR", "ADD"]

def no_operand_mnemonics : List String :=
  ["CLR", "CMP", "RTL", "RTR", "ORS", "NOP", "HLT", "SNO", "SNA", "SZS"]

/-- C7.  Assembling a direct memory-reference instruction `OP n`
(`OP ∈ {JMP, STR, ADD}`, `n ∈ [0,31]`) at address 0 and disassembling the
produced word yields `OP n` back; and for every operandless mnemonic
(register, control and skip classes), disassembling its assembled word
yields the mnemonic back. -/
theorem C7_assemble_disassemble_roundtrip :
    (∀ m ∈ memory_ref_mnemonics, ∀ n < 32,
        (parse_instruction [] (m ++ " " ++ Nat.repr n).toList 0 1).toOption.map
            disassemble_instruction
          = some (m ++ " " ++ Nat.repr n))
    ∧ (∀ m ∈ no_operand_mnemonics,
        (parse_instruction [] m.toList 0 1).toOption.map disassemble_instruction
          = some m) := by
  constructor <;> decide

theorem C7_witness :
    (parse_instruction [] ("ADD" ++ " " ++ Nat.repr 16).toList 0 1).toOption.map
        disassemble_instruction
      = some ("ADD" ++ " " ++ Nat.repr 16) :=
  C7_assemble_disassemble_roundtrip.1 "ADD" (by decide) 16 (by decide)

/-! ## C3: what loading an assembled image does to gap addresses -/

/-- A source whose `ORG` leaves a gap at address 1: `CLR` at 0, data at 2. -/
def orgSrc : String := "CLR\nORG 2\nDATA 42"

/-- A machine whose memory already holds 7 at the gap address 1. -/
def gapSys : Sys :=
  { cpu := CPU.initial,
    memory := { banks := fun _ a => if a = 1 then 7 else 0, current_bank := 0, num_banks := 1 },
    io_system := IOSystem.initial }

/-- C3 counterexample: `orgSrc` assembles without errors and emits no word
for address 1, yet loading it through the facade overwrites cell 1 (holding
7 beforehand) with 0, because `assemble` flattens the sparse image into a
dense zero-filled list before `load_program` writes every entry. -/
theorem C3_counterexample :
    (assemble_passes orgSrc).toOption.map (fun st => (st.sparse_code.lookup 1, st.errors))
      = some (none, [])
    ∧ gapSys.memory.read 1 = 7
    ∧ (gapSys.load_assembly_program orgSrc 0).1 = true
    ∧ (gapSys.load_assembly_program orgSrc 0).2.memory.read 1 = 0 := by
  exact ⟨by decide, rfl, by decide, by decide⟩

/-- Every address inserted into the sparse dictionary by one second-pass
line is below the memory size (the insertion sites sit behind the
`address >= memory_size` guard). -/
lemma second_pass_line_keys (labels : List (String × Nat)) (line_num : Nat) (line0 : Line)
    (st st' : Pass2State) (h : second_pass_line labels st line_num line0 = Except.ok st')
    (hk : ∀ k v, (k, v) ∈ st.sparse_code → k < 256) :
    ∀ k v, (k, v) ∈ st'.sparse_code → k < 256 := by
  intro k v hmem
  simp only [second_pass_line] at h
  repeat' split at h
  all_goals
    first
      | exact Except.noConfusion h
      | (injection h with h'
         subst h'
         first
           | exact hk k v hmem
           | (rcases List.mem_cons.mp hmem with heq | hmem'
              · cases heq
                omega
              · exact hk _ _ hmem'))

lemma second_pass_fold_keys (labels : List (String × Nat)) (lines : List (Nat × Line)) :
    ∀ st st',
      lines.foldlM (fun st p => second_pass_line labels st p.1 p.2) st = Except.ok st' →
      (∀ k v, (k, v) ∈ st.sparse_code → k < 256) →
      ∀ k v, (k, v) ∈ st'.sparse_code → k < 256 := by
  induction lines with
  | nil =>
    intro st st' h hk
    simp only [List.foldlM_nil, Except.pure, pure] at h
    injection h with h'
    subst h'
    exact hk
  | cons p rest ih =>
    intro st st' h hk
    rw [List.foldlM_cons] at h
    cases hstep : second_pass_line labels st p.1 p.2 with
    | error e =>
      rw [hstep] at h
      exact Except.noConfusion h
    | ok st1 =>
      rw [hstep] at h
      exact ih st1 st' h (second_pass_line_keys labels p.1 p.2 st st1 hstep hk)

lemma assemble_passes_keys (src : String) (st2 : Pass2State)
    (h : assemble_passes src = Except.ok st2) :
    ∀ k v, (k, v) ∈ st2.sparse_code → k < 256 := by
  unfold assemble_passes at h
  exact second_pass_fold_keys _ _ _ _ h (by simp)

lemma foldl_max_lt (l : List (Nat × Nat)) (bound : Nat) :
    ∀ init, init < bound → (∀ k v, (k, v) ∈ l → k < bound) →
      l.foldl (fun m p => max m p.1) init < bound := by
  induction l with
  | nil => intro init h _; simpa using h
  | cons p rest ih =>
    intro init h hk
    rw [List.foldl_cons]
    refine ih _ ?_ fun k v hm => hk k v (List.mem_cons_of_mem _ hm)
    have := hk p.1 p.2 (List.mem_cons_self _ _)
    omega

lemma foldl_max_ge_init (l : List (Nat × Nat)) :
    ∀ init, init ≤ l.foldl (fun m p => max m p.1) init := by
  induction l with
  | nil => intro init; simp
  | cons p rest ih =>
    intro init
    rw [List.foldl_cons]
    calc init ≤ max init p.1 := Nat.le_max_left _ _
      _ ≤ _ := ih (max init p.1)

lemma foldl_max_ge (l : List (Nat × Nat)) :
    ∀ init k v, (k, v) ∈ l → k ≤ l.foldl (fun m p => max m p.1) init := by
  induction l with
  | nil => intro _ _ _ h; cases h
  | cons p rest ih =>
    intro init k v hm
    rw [List.foldl_cons]
    rcases List.mem_cons.mp hm with heq | hm'
    · cases heq
      calc k ≤ max init k := Nat.le_max_right _ _
        _ ≤ _ := foldl_max_ge_init rest (max init k)
    · exact ih _ k v hm'

lemma sparse_max_lt (sc : List (Nat × Nat)) (hk : ∀ k v, (k, v) ∈ sc → k < 256) :
    sparse_max_address sc < 256 :=
  foldl_max_lt sc 256 0 (by norm_num) hk

lemma le_sparse_max (sc : List (Nat × Nat)) (k v : Nat) (hm : (k, v) ∈ sc) :
    k ≤ sparse_max_address sc :=
  foldl_max_ge sc 0 k v hm

lemma Memory.read_write (m : Memory) (addr d a : Nat) :
    (m.write addr d).read a = if a % 256 = addr % 256 then d % 256 else m.read a := by
  unfold Memory.read Memory.write
  by_cases hc : a % 256 = addr % 256
  · rw [if_pos hc]
    simp [hc]
  · rw [if_neg hc]
    simp [hc]

lemma load_loop_read : ∀ (data : List Nat) (i : Nat) (m : Memory) (a : Nat),
    i + data.length ≤ 256 → a < 256 →
    (Memory.load_program_loop m data 0 i).read a =
      if i ≤ a ∧ a < i + data.length then (data.getD (a - i) 0) % 256 else m.read a := by
  intro data
  induction data with
  | nil =>
    intro i m a h1 h2
    rw [show Memory.load_program_loop m [] 0 i = m from rfl]
    rw [if_neg (by simp only [List.length_nil, Nat.add_zero]; omega)]
  | cons x rest ih =>
    intro i m a h1 h2
    have h1' : i + 1 + rest.length ≤ 256 := by
      simp only [List.length_cons] at h1
      omega
    rw [show Memory.load_program_loop m (x :: rest) 0 i
        = Memory.load_program_loop (m.write ((0 + i) % 256) (x % 256)) rest 0 (i + 1)
        from rfl]
    rw [ih (i + 1) _ a h1' h2]
    by_cases hc : i + 1 ≤ a ∧ a < i + 1 + rest.length
    · rw [if_pos hc,
        if_pos (show i ≤ a ∧ a < i + (x :: rest).length by
          simp only [List.length_cons]; omega)]
      have hai : a - i = (a - (i + 1)) + 1 := by omega
      rw [hai]
      rfl
    · rw [if_neg hc]
      rw [Memory.read_write]
      by_cases ha : a = i
      · subst ha
        rw [if_pos (by omega),
          if_pos (show a ≤ a ∧ a < a + (x :: rest).length by
            simp only [List.length_cons]; omega)]
        rw [Nat.sub_self]
        simp only [List.getD_cons_zero]
        omega
      · have hi : i < 256 := by omega
        rw [if_neg (by omega)]
        rw [if_neg (by simp only [List.length_cons]; omega)]

lemma Memory.load_program_read (m : Memory) (data : List Nat) (hlen : data.length ≤ 256)
    (a : Nat) (ha : a < 256) :
    (m.load_program data 0).read a =
      if a < data.length then (data.getD a 0) % 256 else m.read a := by
  unfold Memory.load_program
  rw [show (0 : Nat) % 256 = 0 from rfl]
  rw [load_loop_read data 0 m a (by omega) ha]
  by_cases h : a < data.length
  · rw [if_pos ⟨Nat.zero_le _, by omega⟩, if_pos h, Nat.sub_zero]
  · rw [if_neg (by omega), if_neg h]

lemma flatten_sparse_length_le (sc : List (Nat × Nat))
    (hk : ∀ k v, (k, v) ∈ sc → k < 256) :
    (flatten_sparse sc).length ≤ 256 := by
  unfold flatten_sparse
  by_cases hsc : sc = []
  · rw [if_pos hsc]
    simp
  · rw [if_neg hsc]
    simp only [List.length_map, List.length_range]
    have := sparse_max_lt sc hk
    omega

lemma flatten_sparse_getD (sc : List (Nat × Nat)) (a : Nat)
    (h : a < (flatten_sparse sc).length) :
    (flatten_sparse sc).getD a 0 = (sc.lookup a).getD 0 := by
  unfold flatten_sparse at h ⊢
  by_cases hsc : sc = []
  · rw [if_pos hsc] at h
    simp at h
  · rw [if_neg hsc] at h ⊢
    simp only [List.length_map, List.length_range] at h
    rw [List.getD_eq_getElem?_getD, List.getElem?_map, List.getElem?_range h]
    rfl

/-- C3 amended.  For every source that assembles without errors, the facade
load succeeds and writes exactly the flattened image: cells at addresses at
or beyond the flattened length keep their previous value, cells at emitted
addresses receive the emitted word, and cells at gap addresses below the
highest emitted address are overwritten with 0 (not preserved), because
`assemble` flattens the sparse dictionary into a dense zero-filled list
before `load_program` writes every entry. -/
theorem C3_amended_gap_cells_zeroed (src : String) (s : Sys) (st2 : Pass2State)
    (hp : assemble_passes src = Except.ok st2) (he : st2.errors = []) :
    (s.load_assembly_program src 0).1 = true
    ∧ (flatten_sparse st2.sparse_code).length ≤ 256
    ∧ (∀ a, a < 256 → (flatten_sparse st2.sparse_code).length ≤ a →
        (s.load_assembly_program src 0).2.memory.read a = s.memory.read a)
    ∧ (∀ a, a < (flatten_sparse st2.sparse_code).length →
        (s.load_assembly_program src 0).2.memory.read a
          = ((st2.sparse_code.lookup a).getD 0) % 256)
    ∧ (∀ a, a < (flatten_sparse st2.sparse_code).length →
        st2.sparse_code.lookup a = none →
        (s.load_assembly_program src 0).2.memory.read a = 0) := by
  have hkeys := assemble_passes_keys src st2 hp
  have hlen := flatten_sparse_length_le st2.sparse_code hkeys
  have hasm : assemble src = Except.ok (flatten_sparse st2.sparse_code, st2.errors) := by
    unfold assemble
    rw [hp]
  have hload : s.load_assembly_program src 0
      = (true, { s with
          memory := s.memory.load_program (flatten_sparse st2.sparse_code) 0,
          cpu := { s.cpu with pc := 0 } }) := by
    unfold Sys.load_assembly_program
    rw [hasm, he]
    simp
  refine ⟨by rw [hload], hlen, ?_, ?_, ?_⟩
  · intro a ha hge
    rw [hload]
    show (s.memory.load_program (flatten_sparse st2.sparse_code) 0).read a = s.memory.read a
    rw [Memory.load_program_read s.memory _ hlen a ha, if_neg (by omega)]
  · intro a hal
    have ha : a < 256 := by omega
    rw [hload]
    show (s.memory.load_program (flatten_sparse st2.sparse_code) 0).read a = _
    rw [Memory.load_program_read s.memory _ hlen a ha, if_pos hal,
      flatten_sparse_getD _ _ hal]
  · intro a hal hnone
    have ha : a < 256 := by omega
    rw [hload]
    show (s.memory.load_program (flatten_sparse st2.sparse_code) 0).read a = 0
    rw [Memory.load_program_read s.memory _ hlen a ha, if_pos hal,
      flatten_sparse_getD _ _ hal, hnone]
    rfl

/-- The second-pass state produced by `orgSrc`. -/
def orgSt2 : Pass2State := { address := 3, sparse_code := [(2, 42), (0, 192)], errors := [] }

theorem C3_witness :
    (gapSys.load_assembly_program orgSrc 0).1 = true
    ∧ (flatten_sparse orgSt2.sparse_code).length ≤ 256
    ∧ (∀ a, a < 256 → (flatten_sparse orgSt2.sparse_code).length ≤ a →
        (gapSys.load_assembly_program orgSrc 0).2.memory.read a = gapSys.memory.read a)
    ∧ (∀ a, a < (flatten_sparse orgSt2.sparse_code).length →
        (gapSys.load_assembly_program orgSrc 0).2.memory.read a
          = ((orgSt2.sparse_code.lookup a).getD 0) % 256)
    ∧ (∀ a, a < (flatten_sparse orgSt2.sparse_code).length →
        orgSt2.sparse_code.lookup a = none →
        (gapSys.load_assembly_program orgSrc 0).2.memory.read a = 0) :=
  C3_amended_gap_cells_zeroed orgSrc gapSys orgSt2 (by rfl) rfl

/-! ## C8: program analysis bounds -/

/-- Memory whose only nonzero cell is address 0. -/
def mem8 : Memory :=
  { banks := fun _ a => if a = 0 then 5 else 0, current_bank := 0, num_banks := 1 }

/-- Memory whose only nonzero cell is address 7. -/
def mem8w : Memory :=
  { banks := fun _ a => if a = 7 then 3 else 0, current_bank := 0, num_banks := 1 }

/-- A last-assignment-wins scan over `range n` computes the largest index
satisfying the predicate (and stays 0 when no index beyond 0 does). -/
lemma foldl_last_sat (p : Nat → Prop) [DecidablePred p] (n : Nat) :
    (∀ a, a < n → p a →
        a ≤ (List.range n).foldl (fun pe addr => if p addr then addr else pe) 0)
    ∧ ((List.range n).foldl (fun pe addr => if p addr then addr else pe) 0 = 0
        ∨ (p ((List.range n).foldl (fun pe addr => if p addr then addr else pe) 0)
           ∧ (List.range n).foldl (fun pe addr => if p addr then addr else pe) 0 < n)) := by
  induction n with
  | zero => simp
  | succ n ih =>
    rw [List.range_succ, List.foldl_append, List.foldl_cons, List.foldl_nil]
    by_cases hn : p n
    · rw [if_pos hn]
      exact ⟨fun a ha _ => by omega, Or.inr ⟨hn, by omega⟩⟩
    · rw [if_neg hn]
      refine ⟨fun a ha hpa => ?_, ?_⟩
      · have han : a ≠ n := fun h => hn (h ▸ hpa)
        exact ih.1 a (by omega) hpa
      · rcases ih.2 with h | ⟨h1, h2⟩
        · exact Or.inl h
        · exact Or.inr ⟨h1, by omega⟩

lemma analyze_program_end_spec (m : Memory) :
    (∀ a, a < 256 → m.read a ≠ 0 → a ≤ analyze_program_end m)
    ∧ (analyze_program_end m = 0
       ∨ (m.read (analyze_program_end m) ≠ 0 ∧ analyze_program_end m < 256)) := by
  have h := foldl_last_sat (fun a => m.read a ≠ 0) 256
  exact h

set_option maxRecDepth 8192 in
/-- C8 counterexample: a memory whose only nonzero word sits at address 0 is
reported as "no program" even though not every cell is zero. -/
theorem C8_counterexample :
    mem8.read 0 = 5
    ∧ analyze_program_lines mem8 =
        ["MICRO II Program Analysis", String.mk (List.replicate 40 '='),
         "No program found in memory."] := by
  exact ⟨rfl, by decide⟩

/-- C8 amended.  The analysis reports "no program" exactly when every cell at
an address in 1..255 is zero (the word at address 0 is ignored by the test,
since the scan leaves `program_end = 0` in that case); otherwise
`program_end` is the highest nonzero address and the listing block has one
entry per address from 0 to `program_end`. -/
theorem C8_amended_no_program (m : Memory) :
    (analyze_program_lines m =
        ["MICRO II Program Analysis", String.mk (List.replicate 40 '='),
         "No program found in memory."]
      ↔ ∀ a, 0 < a → a < 256 → m.read a = 0)
    ∧ (analyze_program_end m ≠ 0 →
        m.read (analyze_program_end m) ≠ 0
        ∧ analyze_program_end m < 256
        ∧ (∀ a, a < 256 → m.read a ≠ 0 → a ≤ analyze_program_end m)
        ∧ (analyze_listing m (analyze_program_end m)
            (analyze_jump_targets m (analyze_program_end m))).length
            = analyze_program_end m + 1) := by
  have hspec := analyze_program_end_spec m
  constructor
  · constructor
    · intro heq a ha0 ha
      by_contra hne
      have hle := hspec.1 a ha hne
      have hend : analyze_program_end m ≠ 0 := by omega
      have hlen := congrArg List.length heq
      simp [analyze_program_lines, hend, analyze_listing] at hlen
    · intro hz
      have hend : analyze_program_end m = 0 := by
        rcases hspec.2 with h | ⟨h1, h2⟩
        · exact h
        · by_contra hne
          exact h1 (hz _ (Nat.pos_of_ne_zero hne) h2)
      simp [analyze_program_lines, hend]
  · intro hne
    rcases hspec.2 with h | ⟨h1, h2⟩
    · exact absurd h hne
    · exact ⟨h1, h2, hspec.1, by simp [analyze_listing]⟩

theorem C8_witness :
    (analyze_program_lines mem8w =
        ["MICRO II Program Analysis", String.mk (List.replicate 40 '='),
         "No program found in memory."]
      ↔ ∀ a, 0 < a → a < 256 → mem8w.read a = 0)
    ∧ (analyze_program_end mem8w ≠ 0 →
        mem8w.read (analyze_program_end mem8w) ≠ 0
        ∧ analyze_program_end mem8w < 256
        ∧ (∀ a, a < 256 → mem8w.read a ≠ 0 → a ≤ analyze_program_end mem8w)
        ∧ (analyze_listing mem8w (analyze_program_end mem8w)
            (analyze_jump_targets mem8w (analyze_program_end mem8w))).length
            = analyze_program_end mem8w + 1) :=
  C8_amended_no_program mem8w

end Micro2
